import Mathlib

set_option maxRecDepth 4000

/-!
Shallow embedding of the quantum-vault program (Rust, pinocchio runtime):
the dispatcher (`src/lib.rs`), the Split transition (`src/instructions/split.rs`),
and — where the repository's own handler files for Open and Close are not under
`src/` — models of those transitions taken from the specification and the
integration tests (`tests/test.rs`).

Bytes are modelled as `List Nat` (each entry a byte value); u64 balances are
`Nat` with explicit `% 2^64` where the Rust code performs wrapping 64-bit
addition, and `Nat` truncated subtraction for `u64::saturating_sub`.
The external Winternitz library (signature → recovered pubkey → merklized
digest) and the sha256 `hashv` primitive are out of scope per the spec §1;
they enter as explicit function parameters `recoverDigest` and `hashv`.
-/

namespace QuantumVault

abbrev Bytes := List Nat

/-- The error values the program surfaces, named after the Solana
`ProgramError` variants the source uses.  Spec taxonomy: `MalformedInput` is
`InvalidInstructionData`, `AuthorizationFailure` is `MissingRequiredSignature`,
`CollaboratorFailure` is `InsufficientFunds`; `RecordMissing` is the host-side
failure for a reference to a destroyed record (modelled from the spec). -/
inductive ProgramError where
  | InvalidInstructionData
  | NotEnoughAccountKeys
  | MissingRequiredSignature
  | InsufficientFunds
  | RecordMissing
deriving DecidableEq, Repr

/-- One ledger account: its 32-byte address, its u64 lamport balance, and
whether it has been closed (destroyed) by `AccountInfo::close`. -/
structure AccountInfo where
  key : Bytes
  lamports : Nat
  closed : Bool := false
deriving DecidableEq, Repr

/-- The program id constant `ID` from `src/lib.rs`. -/
def ID : Bytes :=
  [0x0f, 0x1e, 0x6b, 0x14, 0x21, 0xc0, 0x4a, 0x07, 0x04, 0x31, 0x26, 0x5c,
   0x19, 0xc5, 0xbb, 0xee, 0x19, 0x92, 0xba, 0xe8, 0xaf, 0xd1, 0xcd, 0x07,
   0x8e, 0xf8, 0xaf, 0x70, 0x47, 0xdc, 0x11, 0xf7]

/-- The byte string `b"ProgramDerivedAddress"` used as the domain tag in the
PDA equivalence check of `split.rs`. -/
def pdaDomainTag : Bytes :=
  [0x50, 0x72, 0x6f, 0x67, 0x72, 0x61, 0x6d, 0x44, 0x65, 0x72, 0x69, 0x76,
   0x65, 0x64, 0x41, 0x64, 0x64, 0x72, 0x65, 0x73, 0x73]

/-- `u64::from_le_bytes`: little-endian decoding of an 8-byte field. -/
def u64FromLeBytes (bs : Bytes) : Nat :=
  bs.foldr (fun b acc => b + 256 * acc) 0

/-- Address derivation (spec §4.1): the hash of
`identityDigest ‖ bump ‖ protocolIdentifier ‖ domainTag`, exactly the
`solana_nostd_sha256::hashv` call in `split.rs` lines 120-125, with the hash
function abstracted as the parameter `hashv`. -/
def derive (hashv : List Bytes → Bytes) (identityDigest bump : Bytes) : Bytes :=
  hashv [identityDigest, bump, ID, pdaDomainTag]

/-- Address verification (spec §4.1): true iff the derived address equals the
candidate address, by whole-buffer comparison (the `.ne` check in `split.rs`
line 126, negated). -/
def verify (hashv : List Bytes → Bytes) (candidate identityDigest bump : Bytes) : Bool :=
  derive hashv identityDigest bump == candidate

/-- The 72-byte Split message assembled in `split.rs` lines 107-110:
amount (8, little-endian) ‖ split key (32) ‖ refund key (32). -/
def splitMessage (amount splitKey refundKey : Bytes) : Bytes :=
  amount ++ splitKey ++ refundKey

/-- `SplitVaultAccounts` from `split.rs`: vault, split recipient, refund
recipient.  Spec §5: the three references are exclusive (distinct accounts). -/
structure SplitVaultAccounts where
  vault : AccountInfo
  split : AccountInfo
  refund : AccountInfo
deriving DecidableEq, Repr

/-- `SplitVaultAccounts::try_from`: exactly three accounts, in order
vault, split, refund; otherwise `NotEnoughAccountKeys`. -/
def SplitVaultAccounts.tryFrom (accounts : List AccountInfo) :
    Except ProgramError SplitVaultAccounts :=
  match accounts with
  | [vault, split, refund] => .ok ⟨vault, split, refund⟩
  | _ => .error .NotEnoughAccountKeys

/-- `SplitVaultInstructionData` from `split.rs` (field name `siganture` kept
as in the source): signature proof (896 bytes), amount (8 bytes), bump (1 byte). -/
structure SplitVaultInstructionData where
  siganture : Bytes
  amount : Bytes
  bump : Bytes
deriving DecidableEq, Repr

/-- `SplitVaultInstructionData::try_from`: the payload must be exactly
905 bytes (`size_of::<SplitVaultInstructionData>` = 896 + 8 + 1), else
`InvalidInstructionData`; on success the fields are sliced as
signature = bytes 0..896, bump = byte 896, amount = bytes 897..905. -/
def SplitVaultInstructionData.tryFrom (data : Bytes) :
    Except ProgramError SplitVaultInstructionData :=
  if data.length ≠ 905 then
    .error .InvalidInstructionData
  else
    .ok { siganture := data.take 896
          bump := (data.drop 896).take 1
          amount := (data.drop 897).take 8 }

/-- `SplitVault` from `split.rs`: parsed accounts plus parsed payload. -/
structure SplitVault where
  accounts : SplitVaultAccounts
  instruction_data : SplitVaultInstructionData
deriving DecidableEq, Repr

/-- `SplitVault::try_from((data, accounts))`: parse the accounts, then the
payload. -/
def SplitVault.tryFrom (data : Bytes) (accounts : List AccountInfo) :
    Except ProgramError SplitVault :=
  match SplitVaultAccounts.tryFrom accounts with
  | .error e => .error e
  | .ok a =>
    match SplitVaultInstructionData.tryFrom data with
    | .error e => .error e
    | .ok i => .ok ⟨a, i⟩

/-- `SplitVault::process` (`split.rs` lines 105-140): assemble the 72-byte
message, recover and merklize the signer digest (the external Winternitz
library, abstracted as `recoverDigest`), compare the derived PDA with the
vault key, and only on a match credit the split account with the wrapping
u64 addition of `amount`, credit the refund account with the saturating
remainder, zero the vault and close it.  Returns the result together with
the post-state of the three accounts (unchanged on the error path). -/
def SplitVault.process (hashv : List Bytes → Bytes)
    (recoverDigest : Bytes → Bytes → Bytes) (s : SplitVault) :
    Except ProgramError Unit × SplitVaultAccounts :=
  let message := splitMessage s.instruction_data.amount
      s.accounts.split.key s.accounts.refund.key
  let hash := recoverDigest s.instruction_data.siganture message
  if derive hashv hash s.instruction_data.bump ≠ s.accounts.vault.key then
    (.error .MissingRequiredSignature, s.accounts)
  else
    let amt := u64FromLeBytes s.instruction_data.amount
    let split' : AccountInfo :=
      { s.accounts.split with lamports := (s.accounts.split.lamports + amt) % 2 ^ 64 }
    let refund' : AccountInfo :=
      { s.accounts.refund with
        lamports := (s.accounts.refund.lamports + (s.accounts.vault.lamports - amt)) % 2 ^ 64 }
    let vault' : AccountInfo := { s.accounts.vault with lamports := 0, closed := true }
    (.ok (), ⟨vault', split', refund'⟩)

/-- The complete Split invocation as the dispatcher performs it:
`SplitVault::try_from` then `process`; a parse failure returns before the
externally supplied `recoverDigest` is ever consulted, with the accounts
untouched. -/
def SplitVault.run (hashv : List Bytes → Bytes)
    (recoverDigest : Bytes → Bytes → Bytes)
    (data : Bytes) (accounts : List AccountInfo) :
    Except ProgramError Unit × List AccountInfo :=
  match SplitVault.tryFrom data accounts with
  | .error e => (.error e, accounts)
  | .ok s =>
    match SplitVault.process hashv recoverDigest s with
    | (r, a') => (r, [a'.vault, a'.split, a'.refund])

/-- `CloseVaultAccounts`.  Modelled from the spec: the file
`src/instructions/close.rs` is not under `src/`; spec §6 gives Close the
order-significant references record then refund-target, and
`tests/test.rs` (`test_quantum_vault_close`) passes exactly those two. -/
structure CloseVaultAccounts where
  vault : AccountInfo
  refund : AccountInfo
deriving DecidableEq, Repr

/-- Modelled from the spec: Close account parsing — exactly two accounts,
vault then refund, else insufficient destination references
(`MalformedInput` taxonomy's `NotEnoughAccountKeys`). -/
def CloseVaultAccounts.tryFrom (accounts : List AccountInfo) :
    Except ProgramError CloseVaultAccounts :=
  match accounts with
  | [vault, refund] => .ok ⟨vault, refund⟩
  | _ => .error .NotEnoughAccountKeys

/-- Modelled from the spec: the Close payload
`signatureProof (896) ‖ bump (1)` (spec §4.4/§6), validated to exactly
897 bytes. -/
structure CloseVaultInstructionData where
  siganture : Bytes
  bump : Bytes
deriving DecidableEq, Repr

/-- Modelled from the spec: Close payload parsing, exact length 897, any
deviation fails as `MalformedInput` (`InvalidInstructionData`). -/
def CloseVaultInstructionData.tryFrom (data : Bytes) :
    Except ProgramError CloseVaultInstructionData :=
  if data.length ≠ 897 then
    .error .InvalidInstructionData
  else
    .ok { siganture := data.take 896, bump := data.drop 896 }

/-- Modelled from the spec: `CloseVault::process` (`close.rs` missing from
`src/`; spec §4.4 and `tests/test.rs` lines 261-311).  The canonical message
is the 32-byte refund-destination address alone; same recover → compress →
verify → mutate-on-success sequence as Split, except the entire record
balance is swept to the refund destination and the record is destroyed. -/
def CloseVault.process (hashv : List Bytes → Bytes)
    (recoverDigest : Bytes → Bytes → Bytes)
    (accounts : CloseVaultAccounts) (idata : CloseVaultInstructionData) :
    Except ProgramError Unit × CloseVaultAccounts :=
  let message := accounts.refund.key
  let hash := recoverDigest idata.siganture message
  if derive hashv hash idata.bump ≠ accounts.vault.key then
    (.error .MissingRequiredSignature, accounts)
  else
    let refund' : AccountInfo :=
      { accounts.refund with
        lamports := (accounts.refund.lamports + accounts.vault.lamports) % 2 ^ 64 }
    let vault' : AccountInfo := { accounts.vault with lamports := 0, closed := true }
    (.ok (), ⟨vault', refund'⟩)

/-- Modelled from the spec: the complete Close invocation (parse accounts,
parse payload, process), mirroring `SplitVault.run`. -/
def CloseVault.run (hashv : List Bytes → Bytes)
    (recoverDigest : Bytes → Bytes → Bytes)
    (data : Bytes) (accounts : List AccountInfo) :
    Except ProgramError Unit × List AccountInfo :=
  match CloseVaultAccounts.tryFrom accounts with
  | .error e => (.error e, accounts)
  | .ok a =>
    match CloseVaultInstructionData.tryFrom data with
    | .error e => (.error e, accounts)
    | .ok i =>
      match CloseVault.process hashv recoverDigest a i with
      | (r, a') => (r, [a'.vault, a'.refund])

/-- Modelled from the spec: the Open transition (`open.rs` missing from
`src/`; spec §4.2/§6).  References: payer, new record, allocator
collaborator; payload `identityDigest (32) ‖ bump (1)`; precondition the
record key equals `derive(identityDigest, bump)`; effect: fund the record
at that address with the minimum viable funding `minFunding` from the payer
(the payer must cover it, else the collaborator rejects). -/
def OpenVault.run (hashv : List Bytes → Bytes) (minFunding : Nat)
    (data : Bytes) (accounts : List AccountInfo) :
    Except ProgramError Unit × List AccountInfo :=
  match accounts with
  | [payer, record, allocator] =>
    if data.length ≠ 33 then
      (.error .InvalidInstructionData, accounts)
    else
      let identityDigest := data.take 32
      let bump := data.drop 32
      if derive hashv identityDigest bump ≠ record.key then
        (.error .MissingRequiredSignature, accounts)
      else if payer.lamports < minFunding then
        (.error .InsufficientFunds, accounts)
      else
        let payer' : AccountInfo := { payer with lamports := payer.lamports - minFunding }
        let record' : AccountInfo :=
          { record with lamports := (record.lamports + minFunding) % 2 ^ 64 }
        (.ok (), [payer', record', allocator])
  | _ => (.error .NotEnoughAccountKeys, accounts)

/-- The dispatcher `process_instruction` from `src/lib.rs`: route on the
leading tag byte — 0 `OpenVault::DISCRIMINATOR`, 1 `SplitVault::DISCRIMINATOR`
(the value in `split.rs`), 2 `CloseVault::DISCRIMINATOR` — passing the
remaining bytes to the handler; any other tag, or an empty request, fails
with `InvalidInstructionData`.  (The Open and Close discriminator values are
modelled from the spec §4.5/§6 and the tag bytes `tests/test.rs` sends, their
declaring files being absent from `src/`.) -/
def process_instruction (hashv : List Bytes → Bytes)
    (recoverDigest : Bytes → Bytes → Bytes) (minFunding : Nat)
    (accounts : List AccountInfo) (instruction_data : Bytes) :
    Except ProgramError Unit × List AccountInfo :=
  match instruction_data with
  | 0 :: data => OpenVault.run hashv minFunding data accounts
  | 1 :: data => SplitVault.run hashv recoverDigest data accounts
  | 2 :: data => CloseVault.run hashv recoverDigest data accounts
  | _ => (.error .InvalidInstructionData, accounts)

/-- Modelled from the spec: the host ledger supplies only existing records;
an invocation referencing an already-destroyed record's address fails
("record no longer exists", spec §8) with no effect.  Wrapper for Split. -/
def hostRunSplit (hashv : List Bytes → Bytes)
    (recoverDigest : Bytes → Bytes → Bytes)
    (data : Bytes) (accounts : SplitVaultAccounts) :
    Except ProgramError Unit × SplitVaultAccounts :=
  if accounts.vault.closed then
    (.error .RecordMissing, accounts)
  else
    match SplitVaultInstructionData.tryFrom data with
    | .error e => (.error e, accounts)
    | .ok i => SplitVault.process hashv recoverDigest ⟨accounts, i⟩

/-- Modelled from the spec: the same host gate for Close — a reference to a
destroyed record fails with no effect. -/
def hostRunClose (hashv : List Bytes → Bytes)
    (recoverDigest : Bytes → Bytes → Bytes)
    (data : Bytes) (accounts : CloseVaultAccounts) :
    Except ProgramError Unit × CloseVaultAccounts :=
  if accounts.vault.closed then
    (.error .RecordMissing, accounts)
  else
    match CloseVaultInstructionData.tryFrom data with
    | .error e => (.error e, accounts)
    | .ok i => CloseVault.process hashv recoverDigest accounts i

/-! ## Helper lemmas -/

/-- Every Split outcome either leaves the three accounts exactly as supplied
or is a success. -/
lemma splitProcess_cases (hashv : List Bytes → Bytes)
    (recoverDigest : Bytes → Bytes → Bytes) (s : SplitVault) :
    (SplitVault.process hashv recoverDigest s).2 = s.accounts ∨
      (SplitVault.process hashv recoverDigest s).1 = .ok () := by
  unfold SplitVault.process
  dsimp only
  split
  · left; rfl
  · right; rfl

/-- A successful Split leaves the vault zeroed and closed. -/
lemma splitProcess_ok_vault {hashv : List Bytes → Bytes}
    {recoverDigest : Bytes → Bytes → Bytes} {s : SplitVault}
    {acc' : SplitVaultAccounts}
    (h : SplitVault.process hashv recoverDigest s = (.ok (), acc')) :
    acc'.vault.lamports = 0 ∧ acc'.vault.closed = true := by
  unfold SplitVault.process at h
  dsimp only at h
  split at h
  · exact absurd (congrArg Prod.fst h) (by simp)
  · injection h with h1 h2
    subst h2
    exact ⟨rfl, rfl⟩

/-- Inversion of the Split account parse: success forces the supplied list to
be exactly the three parsed accounts in order. -/
lemma splitAccounts_tryFrom_ok {accounts : List AccountInfo}
    {a : SplitVaultAccounts} (h : SplitVaultAccounts.tryFrom accounts = .ok a) :
    accounts = [a.vault, a.split, a.refund] := by
  unfold SplitVaultAccounts.tryFrom at h
  split at h
  · cases h; rfl
  · exact absurd h (by simp)

/-- Inversion of the whole Split parse. -/
lemma splitTryFrom_ok {data : Bytes} {accounts : List AccountInfo}
    {s : SplitVault} (h : SplitVault.tryFrom data accounts = .ok s) :
    accounts = [s.accounts.vault, s.accounts.split, s.accounts.refund] := by
  unfold SplitVault.tryFrom at h
  cases ha : SplitVaultAccounts.tryFrom accounts with
  | error e => rw [ha] at h; simp at h
  | ok a =>
    rw [ha] at h
    cases hi : SplitVaultInstructionData.tryFrom data with
    | error e => rw [hi] at h; simp at h
    | ok i =>
      rw [hi] at h
      cases h
      exact splitAccounts_tryFrom_ok ha

/-- Every complete Split invocation either leaves the account list exactly as
supplied or is a success. -/
lemma splitRun_cases (hashv : List Bytes → Bytes)
    (recoverDigest : Bytes → Bytes → Bytes) (data : Bytes)
    (accounts : List AccountInfo) :
    (SplitVault.run hashv recoverDigest data accounts).2 = accounts ∨
      (SplitVault.run hashv recoverDigest data accounts).1 = .ok () := by
  unfold SplitVault.run
  cases htry : SplitVault.tryFrom data accounts with
  | error e => left; rfl
  | ok s =>
    have hacc := splitTryFrom_ok htry
    rcases splitProcess_cases hashv recoverDigest s with h | h
    · left
      simp only []
      rw [h, ← hacc]
    · right
      simp only []
      rw [h]

/-- Every Open invocation either leaves the account list exactly as supplied
or is a success. -/
lemma openRun_cases (hashv : List Bytes → Bytes) (minFunding : Nat)
    (data : Bytes) (accounts : List AccountInfo) :
    (OpenVault.run hashv minFunding data accounts).2 = accounts ∨
      (OpenVault.run hashv minFunding data accounts).1 = .ok () := by
  unfold OpenVault.run
  dsimp only
  repeat' split
  all_goals first
  | (left; rfl)
  | (right; rfl)

/-- Every Close outcome either leaves the two accounts exactly as supplied or
is a success. -/
lemma closeProcess_cases (hashv : List Bytes → Bytes)
    (recoverDigest : Bytes → Bytes → Bytes) (a : CloseVaultAccounts)
    (i : CloseVaultInstructionData) :
    (CloseVault.process hashv recoverDigest a i).2 = a ∨
      (CloseVault.process hashv recoverDigest a i).1 = .ok () := by
  unfold CloseVault.process
  dsimp only
  split
  · left; rfl
  · right; rfl

/-- A successful Close leaves the vault zeroed and closed. -/
lemma closeProcess_ok_vault {hashv : List Bytes → Bytes}
    {recoverDigest : Bytes → Bytes → Bytes} {a : CloseVaultAccounts}
    {i : CloseVaultInstructionData} {acc' : CloseVaultAccounts}
    (h : CloseVault.process hashv recoverDigest a i = (.ok (), acc')) :
    acc'.vault.lamports = 0 ∧ acc'.vault.closed = true := by
  unfold CloseVault.process at h
  dsimp only at h
  split at h
  · exact absurd (congrArg Prod.fst h) (by simp)
  · injection h with h1 h2
    subst h2
    exact ⟨rfl, rfl⟩

/-- Inversion of the Close account parse. -/
lemma closeAccounts_tryFrom_ok {accounts : List AccountInfo}
    {a : CloseVaultAccounts} (h : CloseVaultAccounts.tryFrom accounts = .ok a) :
    accounts = [a.vault, a.refund] := by
  unfold CloseVaultAccounts.tryFrom at h
  split at h
  · cases h; rfl
  · exact absurd h (by simp)

/-- Every complete Close invocation either leaves the account list exactly as
supplied or is a success. -/
lemma closeRun_cases (hashv : List Bytes → Bytes)
    (recoverDigest : Bytes → Bytes → Bytes) (data : Bytes)
    (accounts : List AccountInfo) :
    (CloseVault.run hashv recoverDigest data accounts).2 = accounts ∨
      (CloseVault.run hashv recoverDigest data accounts).1 = .ok () := by
  unfold CloseVault.run
  cases ha : CloseVaultAccounts.tryFrom accounts with
  | error e => left; rfl
  | ok a =>
    have hacc := closeAccounts_tryFrom_ok ha
    cases hi : CloseVaultInstructionData.tryFrom data with
    | error e => left; rfl
    | ok i =>
      rcases closeProcess_cases hashv recoverDigest a i with h | h
      · left
        simp only []
        rw [h, ← hacc]
      · right
        simp only []
        rw [h]

/-- A successful host Split leaves the vault zeroed and closed. -/
lemma hostRunSplit_ok_vault {hashv : List Bytes → Bytes}
    {recoverDigest : Bytes → Bytes → Bytes} {data : Bytes}
    {accounts acc' : SplitVaultAccounts}
    (h : hostRunSplit hashv recoverDigest data accounts = (.ok (), acc')) :
    acc'.vault.lamports = 0 ∧ acc'.vault.closed = true := by
  unfold hostRunSplit at h
  split at h
  · exact absurd (congrArg Prod.fst h) (by simp)
  · split at h
    · exact absurd (congrArg Prod.fst h) (by simp)
    · exact splitProcess_ok_vault h

/-- A successful host Close leaves the vault zeroed and closed. -/
lemma hostRunClose_ok_vault {hashv : List Bytes → Bytes}
    {recoverDigest : Bytes → Bytes → Bytes} {data : Bytes}
    {accounts acc' : CloseVaultAccounts}
    (h : hostRunClose hashv recoverDigest data accounts = (.ok (), acc')) :
    acc'.vault.lamports = 0 ∧ acc'.vault.closed = true := by
  unfold hostRunClose at h
  split at h
  · exact absurd (congrArg Prod.fst h) (by simp)
  · split at h
    · exact absurd (congrArg Prod.fst h) (by simp)
    · exact closeProcess_ok_vault h

/-- A Split invocation whose record is already destroyed fails without
effect. -/
lemma hostRunSplit_closed {hashv : List Bytes → Bytes}
    {recoverDigest : Bytes → Bytes → Bytes} {data : Bytes}
    {accounts : SplitVaultAccounts} (hclosed : accounts.vault.closed = true) :
    hostRunSplit hashv recoverDigest data accounts =
      (.error .RecordMissing, accounts) := by
  simp [hostRunSplit, hclosed]

/-- A Close invocation whose record is already destroyed fails without
effect. -/
lemma hostRunClose_closed {hashv : List Bytes → Bytes}
    {recoverDigest : Bytes → Bytes → Bytes} {data : Bytes}
    {accounts : CloseVaultAccounts} (hclosed : accounts.vault.closed = true) :
    hostRunClose hashv recoverDigest data accounts =
      (.error .RecordMissing, accounts) := by
  simp [hostRunClose, hclosed]

/-! ## Theorems -/

/-- Claim C3: every failing invocation of the entry point — any transition,
any error — returns the account list exactly as supplied: the core's own
verify-before-mutate ordering, with no reliance on host rollback. -/
theorem error_no_mutation (hashv : List Bytes → Bytes)
    (recoverDigest : Bytes → Bytes → Bytes) (minFunding : Nat)
    (accounts : List AccountInfo) (instruction_data : Bytes) (e : ProgramError)
    (h : (process_instruction hashv recoverDigest minFunding accounts
        instruction_data).1 = .error e) :
    (process_instruction hashv recoverDigest minFunding accounts
        instruction_data).2 = accounts := by
  rcases instruction_data with _ | ⟨t, d⟩
  · rfl
  · rcases t with _ | _ | _ | n
    · rcases openRun_cases hashv minFunding d accounts with h2 | h2
      · exact h2
      · exact absurd (h2.symm.trans h) (by simp)
    · rcases splitRun_cases hashv recoverDigest d accounts with h2 | h2
      · exact h2
      · exact absurd (h2.symm.trans h) (by simp)
    · rcases closeRun_cases hashv recoverDigest d accounts with h2 | h2
      · exact h2
      · exact absurd (h2.symm.trans h) (by simp)
    · rfl

/-- Witness for C3: an unknown tag fails and the single supplied account is
untouched. -/
theorem error_no_mutation_witness :
    (process_instruction (fun _ => [1]) (fun _ _ => []) 0
        [⟨[1], 5, false⟩] [9]).2 = [⟨[1], 5, false⟩] :=
  error_no_mutation (fun _ => [1]) (fun _ _ => []) 0 [⟨[1], 5, false⟩] [9]
    .InvalidInstructionData (by rfl)

/-- Claim C5: a successful Split or Close leaves the record with zero balance
and destroyed, and every later Split or Close referencing that destroyed
record fails (`RecordMissing`) with all balances unchanged — no second
payout is possible. -/
theorem destroyed_record_no_replay (hashv : List Bytes → Bytes)
    (recoverDigest : Bytes → Bytes → Bytes) :
    (∀ (data : Bytes) (accounts acc' : SplitVaultAccounts),
      hostRunSplit hashv recoverDigest data accounts = (.ok (), acc') →
        acc'.vault.lamports = 0 ∧ acc'.vault.closed = true
        ∧ (∀ (data2 : Bytes) (sp2 rf2 : AccountInfo),
            hostRunSplit hashv recoverDigest data2 ⟨acc'.vault, sp2, rf2⟩ =
              (.error .RecordMissing, ⟨acc'.vault, sp2, rf2⟩))
        ∧ (∀ (data3 : Bytes) (rf3 : AccountInfo),
            hostRunClose hashv recoverDigest data3 ⟨acc'.vault, rf3⟩ =
              (.error .RecordMissing, ⟨acc'.vault, rf3⟩)))
    ∧ (∀ (data : Bytes) (accounts acc' : CloseVaultAccounts),
      hostRunClose hashv recoverDigest data accounts = (.ok (), acc') →
        acc'.vault.lamports = 0 ∧ acc'.vault.closed = true
        ∧ (∀ (data2 : Bytes) (sp2 rf2 : AccountInfo),
            hostRunSplit hashv recoverDigest data2 ⟨acc'.vault, sp2, rf2⟩ =
              (.error .RecordMissing, ⟨acc'.vault, sp2, rf2⟩))
        ∧ (∀ (data3 : Bytes) (rf3 : AccountInfo),
            hostRunClose hashv recoverDigest data3 ⟨acc'.vault, rf3⟩ =
              (.error .RecordMissing, ⟨acc'.vault, rf3⟩))) := by
  constructor
  · intro data accounts acc' h
    obtain ⟨h0, hc⟩ := hostRunSplit_ok_vault h
    exact ⟨h0, hc, fun data2 sp2 rf2 => hostRunSplit_closed hc,
      fun data3 rf3 => hostRunClose_closed hc⟩
  · intro data accounts acc' h
    obtain ⟨h0, hc⟩ := hostRunClose_ok_vault h
    exact ⟨h0, hc, fun data2 sp2 rf2 => hostRunSplit_closed hc,
      fun data3 rf3 => hostRunClose_closed hc⟩

/-- Witness for C5: a concrete successful Split destroys the vault, and a
second Split against the destroyed record fails with nothing changed. -/
theorem destroyed_record_no_replay_witness :
    hostRunSplit (fun _ => [1]) (fun _ _ => []) (List.replicate 905 0)
        ⟨⟨[1], 5, false⟩, ⟨[2], 0, false⟩, ⟨[3], 0, false⟩⟩ =
      (.ok (), ⟨⟨[1], 0, true⟩, ⟨[2], 0, false⟩, ⟨[3], 5, false⟩⟩)
    ∧ hostRunSplit (fun _ => [1]) (fun _ _ => []) (List.replicate 905 0)
        ⟨⟨[1], 0, true⟩, ⟨[2], 0, false⟩, ⟨[3], 5, false⟩⟩ =
      (.error .RecordMissing, ⟨⟨[1], 0, true⟩, ⟨[2], 0, false⟩, ⟨[3], 5, false⟩⟩) :=
  ⟨by rfl,
   ((destroyed_record_no_replay (fun _ => [1]) (fun _ _ => [])).1
      (List.replicate 905 0)
      ⟨⟨[1], 5, false⟩, ⟨[2], 0, false⟩, ⟨[3], 0, false⟩⟩
      ⟨⟨[1], 0, true⟩, ⟨[2], 0, false⟩, ⟨[3], 5, false⟩⟩
      (by rfl)).2.2.1 (List.replicate 905 0) ⟨[2], 0, false⟩ ⟨[3], 5, false⟩⟩

/-- Claim C8: on a successful Close the canonical message is the 32-byte
refund address alone — the recovery function is consulted on exactly that
message — the entire record balance moves to the refund destination and the
record is destroyed; no partial distribution exists in this transition. -/
theorem close_sweeps_full_balance (hashv : List Bytes → Bytes)
    (recoverDigest : Bytes → Bytes → Bytes)
    (a : CloseVaultAccounts) (i : CloseVaultInstructionData)
    (hkey : a.refund.key.length = 32)
    (hauth : derive hashv (recoverDigest i.siganture a.refund.key) i.bump = a.vault.key)
    (hsum : a.refund.lamports + a.vault.lamports < 2 ^ 64) :
    CloseVault.process hashv recoverDigest a i =
      (.ok (), ⟨{ a.vault with lamports := 0, closed := true },
        { a.refund with lamports := a.refund.lamports + a.vault.lamports }⟩)
    ∧ ∀ rd' : Bytes → Bytes → Bytes,
        rd' i.siganture a.refund.key = recoverDigest i.siganture a.refund.key →
        CloseVault.process hashv rd' a i = CloseVault.process hashv recoverDigest a i := by
  constructor
  · simp only [CloseVault.process, hauth, ne_eq, not_true_eq_false, if_false,
      Nat.mod_eq_of_lt hsum]
  · intro rd' hag
    simp only [CloseVault.process, hag]

/-- Witness for C8: a vault of 5 lamports closed to a refund account holding
3 ends with the refund at 8 and the vault destroyed. -/
theorem close_sweeps_full_balance_witness :
    CloseVault.process (fun _ => [1]) (fun _ _ => [])
      ⟨⟨[1], 5, false⟩, ⟨List.replicate 32 2, 3, false⟩⟩ ⟨[], [0]⟩ =
      (.ok (), ⟨⟨[1], 0, true⟩, ⟨List.replicate 32 2, 8, false⟩⟩) :=
  (close_sweeps_full_balance (fun _ => [1]) (fun _ _ => [])
    ⟨⟨[1], 5, false⟩, ⟨List.replicate 32 2, 3, false⟩⟩ ⟨[], [0]⟩
    (by simp) (by decide) (by decide)).1

/-- Claim C4: for every 32-byte identity digest and every 1-byte bump,
`verify (derive identityDigest bump) identityDigest bump` is true, where
`derive` hashes `identityDigest ‖ bump ‖ protocolIdentifier ‖ domainTag` and
`verify` compares the derived address with the candidate. -/
theorem verify_derive_roundtrip (hashv : List Bytes → Bytes)
    (identityDigest bump : Bytes)
    (hd : identityDigest.length = 32) (hb : bump.length = 1) :
    verify hashv (derive hashv identityDigest bump) identityDigest bump = true := by
  simp [verify]

/-- Witness for C4 at a concrete digest and bump. -/
theorem verify_derive_roundtrip_witness :
    (List.replicate 32 7 : Bytes).length = 32 ∧ ([5] : Bytes).length = 1 ∧
      verify (fun l => l.flatten) (derive (fun l => l.flatten) (List.replicate 32 7) [5])
        (List.replicate 32 7) [5] = true :=
  ⟨by simp, by simp,
    verify_derive_roundtrip (fun l => l.flatten) (List.replicate 32 7) [5]
      (by simp) (by simp)⟩

/-- Claim C6: the Split payload is accepted iff it is exactly 905 bytes,
decoded as signature = bytes 0..896, bump = byte 896, amount = the 8 bytes
at 897..905; any other length fails with `InvalidInstructionData`
(`MalformedInput`), and this happens for every choice of the external
recovery function — i.e. before any signature recovery is attempted. -/
theorem split_payload_parse (data : Bytes) :
    (data.length = 905 →
      SplitVaultInstructionData.tryFrom data =
        .ok ⟨data.take 896, (data.drop 897).take 8, (data.drop 896).take 1⟩)
    ∧ (data.length ≠ 905 →
      SplitVaultInstructionData.tryFrom data = .error .InvalidInstructionData
      ∧ ∀ (hashv : List Bytes → Bytes) (recoverDigest : Bytes → Bytes → Bytes)
          (v s r : AccountInfo),
          SplitVault.run hashv recoverDigest data [v, s, r] =
            (.error .InvalidInstructionData, [v, s, r])) := by
  constructor
  · intro h
    simp [SplitVaultInstructionData.tryFrom, h]
  · intro h
    refine ⟨by simp [SplitVaultInstructionData.tryFrom, h], ?_⟩
    intro hashv recoverDigest v s r
    simp [SplitVault.run, SplitVault.tryFrom, SplitVaultAccounts.tryFrom,
      SplitVaultInstructionData.tryFrom, h, Except.bind]

/-- Witness for C6: a 905-byte payload parses into its three fields, and the
empty payload is rejected as malformed. -/
theorem split_payload_parse_witness :
    SplitVaultInstructionData.tryFrom (List.replicate 905 3) =
      .ok ⟨(List.replicate 905 3 : Bytes).take 896,
           ((List.replicate 905 3 : Bytes).drop 897).take 8,
           ((List.replicate 905 3 : Bytes).drop 896).take 1⟩
    ∧ SplitVaultInstructionData.tryFrom ([] : Bytes) = .error .InvalidInstructionData :=
  ⟨(split_payload_parse (List.replicate 905 3)).1 (by simp),
   ((split_payload_parse []).2 (by simp)).1⟩

/-- Claim C9: the dispatcher routes tag 0 to Open, tag 1 to Split and tag 2
to Close, passing the remaining bytes as the payload; an empty request or
any other leading byte fails with `InvalidInstructionData` (`MalformedInput`)
and touches no account. -/
theorem dispatcher_routes (hashv : List Bytes → Bytes)
    (recoverDigest : Bytes → Bytes → Bytes) (minFunding : Nat)
    (accounts : List AccountInfo) :
    (∀ d : Bytes, process_instruction hashv recoverDigest minFunding accounts (0 :: d) =
        OpenVault.run hashv minFunding d accounts)
    ∧ (∀ d : Bytes, process_instruction hashv recoverDigest minFunding accounts (1 :: d) =
        SplitVault.run hashv recoverDigest d accounts)
    ∧ (∀ d : Bytes, process_instruction hashv recoverDigest minFunding accounts (2 :: d) =
        CloseVault.run hashv recoverDigest d accounts)
    ∧ process_instruction hashv recoverDigest minFunding accounts [] =
        (.error .InvalidInstructionData, accounts)
    ∧ (∀ (t : Nat) (d : Bytes), t ≠ 0 → t ≠ 1 → t ≠ 2 →
        process_instruction hashv recoverDigest minFunding accounts (t :: d) =
          (.error .InvalidInstructionData, accounts)) := by
  refine ⟨fun d => rfl, fun d => rfl, fun d => rfl, rfl, ?_⟩
  intro t d h0 h1 h2
  obtain ⟨n, rfl⟩ : ∃ n, t = n + 3 := ⟨t - 3, by omega⟩
  rfl

/-- Claim C1: when the derived-address check passes, the split target is
credited by exactly the little-endian u64 amount from the payload, the
refund target by the record balance minus that amount clamped at zero
(`Nat` subtraction = `u64::saturating_sub`; no hypothesis relates the amount
to the record balance), and the record is destroyed (balance zero, closed).
The overflow side conditions keep both u64 additions below `2^64`. -/
theorem split_success_distribution (hashv : List Bytes → Bytes)
    (recoverDigest : Bytes → Bytes → Bytes) (s : SplitVault)
    (hauth : derive hashv
        (recoverDigest s.instruction_data.siganture
          (splitMessage s.instruction_data.amount s.accounts.split.key s.accounts.refund.key))
        s.instruction_data.bump = s.accounts.vault.key)
    (hsplit : s.accounts.split.lamports + u64FromLeBytes s.instruction_data.amount < 2 ^ 64)
    (hrefund : s.accounts.refund.lamports +
        (s.accounts.vault.lamports - u64FromLeBytes s.instruction_data.amount) < 2 ^ 64) :
    SplitVault.process hashv recoverDigest s =
      (.ok (), ⟨{ s.accounts.vault with lamports := 0, closed := true },
        { s.accounts.split with lamports :=
            s.accounts.split.lamports + u64FromLeBytes s.instruction_data.amount },
        { s.accounts.refund with lamports :=
            s.accounts.refund.lamports +
              (s.accounts.vault.lamports - u64FromLeBytes s.instruction_data.amount) }⟩) := by
  simp only [SplitVault.process, hauth, ne_eq, not_true_eq_false, if_false,
    Nat.mod_eq_of_lt hsplit, Nat.mod_eq_of_lt hrefund]

/-- Witness for C1: vault of 5 lamports, signed amount 7 — the split target
receives 7 (no check that 7 ≤ 5), the refund target receives `5 - 7`
saturated to 0, and the vault is destroyed. -/
theorem split_success_distribution_witness :
    SplitVault.process (fun _ => [1]) (fun _ _ => [])
      ⟨⟨⟨[1], 5, false⟩, ⟨[2], 0, false⟩, ⟨[3], 0, false⟩⟩,
        ⟨[], [7, 0, 0, 0, 0, 0, 0, 0], [0]⟩⟩ =
      (.ok (), ⟨⟨[1], 0, true⟩, ⟨[2], 7, false⟩, ⟨[3], 0, false⟩⟩) :=
  split_success_distribution (fun _ => [1]) (fun _ _ => [])
    ⟨⟨⟨[1], 5, false⟩, ⟨[2], 0, false⟩, ⟨[3], 0, false⟩⟩,
      ⟨[], [7, 0, 0, 0, 0, 0, 0, 0], [0]⟩⟩
    (by decide) (by decide) (by decide)

/-- Claim C2: the Split transition mutates nothing unless the address derived
from the recovered digest and the supplied bump equals the record's address;
on mismatch it fails with `MissingRequiredSignature` (`AuthorizationFailure`)
and returns the three accounts exactly as they were, and conversely any
change in the accounts implies the derived address matched. -/
theorem split_auth_gate (hashv : List Bytes → Bytes)
    (recoverDigest : Bytes → Bytes → Bytes) (s : SplitVault) :
    (derive hashv
        (recoverDigest s.instruction_data.siganture
          (splitMessage s.instruction_data.amount s.accounts.split.key s.accounts.refund.key))
        s.instruction_data.bump ≠ s.accounts.vault.key →
      SplitVault.process hashv recoverDigest s =
        (.error .MissingRequiredSignature, s.accounts))
    ∧ ((SplitVault.process hashv recoverDigest s).2 ≠ s.accounts →
      derive hashv
        (recoverDigest s.instruction_data.siganture
          (splitMessage s.instruction_data.amount s.accounts.split.key s.accounts.refund.key))
        s.instruction_data.bump = s.accounts.vault.key) := by
  constructor
  · intro h
    simp [SplitVault.process, h]
  · intro h
    by_contra hne
    exact h (by simp [SplitVault.process, hne])

/-- Witness for C2: a recovered digest whose derived address is `[9]` against
a vault whose address is `[1]` — the invocation fails with
`MissingRequiredSignature` and the accounts are returned untouched. -/
theorem split_auth_gate_witness :
    SplitVault.process (fun _ => [9]) (fun _ _ => [])
      ⟨⟨⟨[1], 5, false⟩, ⟨[2], 0, false⟩, ⟨[3], 0, false⟩⟩,
        ⟨[], [7, 0, 0, 0, 0, 0, 0, 0], [0]⟩⟩ =
      (.error .MissingRequiredSignature,
        ⟨⟨[1], 5, false⟩, ⟨[2], 0, false⟩, ⟨[3], 0, false⟩⟩) :=
  (split_auth_gate (fun _ => [9]) (fun _ _ => [])
    ⟨⟨⟨[1], 5, false⟩, ⟨[2], 0, false⟩, ⟨[3], 0, false⟩⟩,
      ⟨[], [7, 0, 0, 0, 0, 0, 0, 0], [0]⟩⟩).1 (by decide)

/-- Claim C7: the Split message is exactly 72 bytes — amount (8, little
endian) then the split destination's 32-byte address then the refund
destination's 32-byte address — and `SplitVault.process` consults the
external recovery function on exactly that message: two recovery functions
that agree on it produce identical outcomes. -/
theorem split_message_layout (amount splitKey refundKey : Bytes)
    (ha : amount.length = 8) (hs : splitKey.length = 32) (hr : refundKey.length = 32) :
    (splitMessage amount splitKey refundKey).length = 72
    ∧ (splitMessage amount splitKey refundKey).take 8 = amount
    ∧ ((splitMessage amount splitKey refundKey).drop 8).take 32 = splitKey
    ∧ (splitMessage amount splitKey refundKey).drop 40 = refundKey
    ∧ ∀ (hashv : List Bytes → Bytes) (rd rd' : Bytes → Bytes → Bytes) (s : SplitVault),
        s.instruction_data.amount = amount → s.accounts.split.key = splitKey →
        s.accounts.refund.key = refundKey →
        rd s.instruction_data.siganture (splitMessage amount splitKey refundKey) =
          rd' s.instruction_data.siganture (splitMessage amount splitKey refundKey) →
        SplitVault.process hashv rd s = SplitVault.process hashv rd' s := by
  refine ⟨by simp [splitMessage, ha, hs, hr], ?_, ?_, ?_, ?_⟩
  · rw [splitMessage, List.append_assoc, ← ha, List.take_left]
  · rw [splitMessage, List.append_assoc, ← ha, List.drop_left, ← hs, List.take_left]
  · rw [splitMessage, List.append_assoc, show (40 : Nat) = 8 + 32 from rfl, ← List.drop_drop,
      ← ha, List.drop_left, ← hs, List.drop_left]
  · intro hashv rd rd' s hA hS hR hagree
    simp only [SplitVault.process, hA, hS, hR, hagree]

/-- Witness for C7 at concrete 8- and 32-byte fields. -/
theorem split_message_layout_witness :
    (splitMessage (List.replicate 8 4) (List.replicate 32 1) (List.replicate 32 2)).length = 72
    ∧ (splitMessage (List.replicate 8 4) (List.replicate 32 1)
        (List.replicate 32 2)).take 8 = List.replicate 8 4 :=
  ⟨(split_message_layout (List.replicate 8 4) (List.replicate 32 1) (List.replicate 32 2)
      (by simp) (by simp) (by simp)).1,
   (split_message_layout (List.replicate 8 4) (List.replicate 32 1) (List.replicate 32 2)
      (by simp) (by simp) (by simp)).2.1⟩

/-- Claim C10: once the address check passes, the credit to the split target
is the wrapping 64-bit addition of the signed amount to its prior balance
(the sum modulo `2^64`, never an error); the refund credit uses saturating
subtraction, so when the amount is at least the vault balance the remainder
is zero and no underflow occurs. -/
theorem split_credit_wrapping (hashv : List Bytes → Bytes)
    (recoverDigest : Bytes → Bytes → Bytes) (s : SplitVault)
    (hauth : derive hashv
        (recoverDigest s.instruction_data.siganture
          (splitMessage s.instruction_data.amount s.accounts.split.key s.accounts.refund.key))
        s.instruction_data.bump = s.accounts.vault.key) :
    ((SplitVault.process hashv recoverDigest s).2.split.lamports =
      (s.accounts.split.lamports + u64FromLeBytes s.instruction_data.amount) % 2 ^ 64)
    ∧ ((SplitVault.process hashv recoverDigest s).2.refund.lamports =
      (s.accounts.refund.lamports +
        (s.accounts.vault.lamports - u64FromLeBytes s.instruction_data.amount)) % 2 ^ 64)
    ∧ (s.accounts.vault.lamports ≤ u64FromLeBytes s.instruction_data.amount →
      (SplitVault.process hashv recoverDigest s).2.refund.lamports =
        s.accounts.refund.lamports % 2 ^ 64) := by
  refine ⟨by simp [SplitVault.process, hauth], by simp [SplitVault.process, hauth], ?_⟩
  intro hle
  simp [SplitVault.process, hauth, Nat.sub_eq_zero_of_le hle]

/-- Witness for C10: a split target already holding `2^64 - 1` lamports
credited with amount 2 ends at 1 (wrapped), while a vault of 1 lamport split
by amount 2 leaves the refund target with its prior balance (remainder
saturated to zero). -/
theorem split_credit_wrapping_witness :
    2 ^ 64 - 1 + 2 > 2 ^ 64 - 1
    ∧ (SplitVault.process (fun _ => [1]) (fun _ _ => [])
        ⟨⟨⟨[1], 1, false⟩, ⟨[2], 2 ^ 64 - 1, false⟩, ⟨[3], 6, false⟩⟩,
          ⟨[], [2, 0, 0, 0, 0, 0, 0, 0], [0]⟩⟩).2.split.lamports = 1
    ∧ (SplitVault.process (fun _ => [1]) (fun _ _ => [])
        ⟨⟨⟨[1], 1, false⟩, ⟨[2], 2 ^ 64 - 1, false⟩, ⟨[3], 6, false⟩⟩,
          ⟨[], [2, 0, 0, 0, 0, 0, 0, 0], [0]⟩⟩).2.refund.lamports = 6 := by
  refine ⟨by norm_num, ?_, ?_⟩
  · rw [(split_credit_wrapping (fun _ => [1]) (fun _ _ => [])
      ⟨⟨⟨[1], 1, false⟩, ⟨[2], 2 ^ 64 - 1, false⟩, ⟨[3], 6, false⟩⟩,
        ⟨[], [2, 0, 0, 0, 0, 0, 0, 0], [0]⟩⟩ (by decide)).1]
    decide
  · rw [(split_credit_wrapping (fun _ => [1]) (fun _ _ => [])
      ⟨⟨⟨[1], 1, false⟩, ⟨[2], 2 ^ 64 - 1, false⟩, ⟨[3], 6, false⟩⟩,
        ⟨[], [2, 0, 0, 0, 0, 0, 0, 0], [0]⟩⟩ (by decide)).2.2 (by decide)]
    decide

/-- Witness for C9: tag 7 is rejected as malformed. -/
theorem dispatcher_routes_witness :
    process_instruction (fun l => l.flatten) (fun _ _ => []) 0 [] [7, 1, 2] =
      (.error .InvalidInstructionData, []) :=
  (dispatcher_routes (fun l => l.flatten) (fun _ _ => []) 0 []).2.2.2.2 7 [1, 2]
    (by decide) (by decide) (by decide)

end QuantumVault
